import Mathlib

/-!
# Verification of the ntex TLS server filter and server signal fan-out

Shallow embedding of two source files of the `hatoo/ntex` repository:

* `src/ntex-tls/src/rustls/server.rs` — the rustls-backed TLS server filter:
  the capability-query dispatcher (`TlsServerFilter::query`), the read/write
  buffer processors (`process_read_buf` / `process_write_buf`) and the
  handshake driver (`TlsServerFilter::create`).
* `src/ntex-server/src/signals.rs` — process-signal registration and fan-out
  (`signal` and the Unix `start` loop).

The cryptographic engine (rustls `ServerConnection`) is external to the
repository; it is modelled abstractly as a state with accessor/transition
functions, exactly as far as the filter code exercises it.
-/

namespace NtexTls

/-! ## Session facts and the capability-query dispatcher

`TlsServerFilter::query` consults the rustls session through three
accessors: `alpn_protocol()`, `peer_certificates()` and `server_name()`;
`is_handshaking()` is read by the handshake driver.  We model the session by
the values those accessors return.  A certificate is its DER byte string. -/

/-- A DER-encoded certificate, as a byte list. -/
abbrev Cert := List Nat

/-- The observable state of a rustls `ServerConnection`, as far as
`TlsServerFilter::query` reads it. -/
structure SessionState where
  handshaking : Bool
  alpn : Option (List Nat)
  peerCerts : Option (List Cert)
  serverName : Option String
deriving DecidableEq

/-- `ntex_io::types::HttpProtocol`. -/
inductive HttpProtocol where
  | http1
  | http2
deriving DecidableEq

/-- The four capability type-ids that `TlsServerFilter::query` recognizes
(`types::HttpProtocol`, `PeerCert`, `PeerCertChain`, `Servername`). -/
inductive QueryId where
  | applicationProtocol
  | peerCertificate
  | peerCertificateChain
  | serverName
deriving DecidableEq

/-- The typed answers `query` can box. -/
inductive QueryAnswer where
  | httpProto (p : HttpProtocol)
  | peerCert (c : Cert)
  | peerCertChain (cs : List Cert)
  | servername (s : String)
deriving DecidableEq

/-- `protos.windows(2).any(|w| w == b"h2")` from `query`: does the byte pair
`[104, 50]` (ASCII `h2`) occur as a contiguous window of the ALPN value?
A slice shorter than 2 has no windows. -/
def hasH2Window : List Nat → Bool
  | a :: b :: rest => (a = 104 && b = 50) || hasH2Window (b :: rest)
  | _ => false

/-- Embedding of `TlsServerFilter::query` (src/ntex-tls/src/rustls/server.rs,
lines 22–64). -/
def query (s : SessionState) (id : QueryId) : Option QueryAnswer :=
  match id with
  | .applicationProtocol =>
      let h2 := (s.alpn.map hasH2Window).getD false
      some (.httpProto (if h2 then .http2 else .http1))
  | .peerCertificate =>
      match s.peerCerts with
      | some chain =>
          match chain.head? with
          | some c => some (.peerCert c)
          | none => none
      | none => none
  | .peerCertificateChain =>
      match s.peerCerts with
      | some chain => some (.peerCertChain chain)
      | none => none
  | .serverName =>
      match s.serverName with
      | some n => some (.servername n)
      | none => none

/-- A session on which the handshake has not completed: per the engine model
of the spec (§3, facts are "populated only after handshake completion,
otherwise absent"), no negotiated fact is available yet. -/
def PreHandshake (s : SessionState) : Prop :=
  s.handshaking = true ∧ s.alpn = none ∧ s.peerCerts = none ∧ s.serverName = none

/-- Spec-side reading of "the ALPN value contains the token h2 as a
contiguous two-byte substring". -/
def SpecHasH2 (v : List Nat) : Prop :=
  ∃ pre suf, v = pre ++ 104 :: 50 :: suf

/-- A session that is still handshaking and has negotiated nothing. -/
def preHsSession : SessionState := ⟨true, none, none, none⟩

/-- A completed session whose negotiated ALPN value is the three bytes
`a h 2` — not equal to the token `h2`, but containing it as a window. -/
def ah2Session : SessionState := ⟨false, some [97, 104, 50], none, none⟩

/-- A completed session whose ALPN value is exactly the token `h2`. -/
def h2Session : SessionState := ⟨false, some [104, 50], none, none⟩

/-- A completed session with a two-certificate peer chain. -/
def certSession : SessionState := ⟨false, none, some [[1, 2], [3]], none⟩

/-! ## The handshake driver

`TlsServerFilter::create` (lines 124–189) runs a loop.  Each iteration
performs one `with_buf` round: it calls `session.complete_io` (twice when
the first call succeeds and output is still pending) and samples
`wants_read()` and `is_handshaking()`.  The round is summarised by the
triple the closure returns, plus the readiness outcome the driver would
observe if it suspends.  The whole loop is a fold over the list of rounds
the environment produces. -/

/-- The `std::io::ErrorKind` values this code can produce or inspect. -/
inductive ErrorKind where
  | other
  | wouldBlock
  | timedOut
  | invalidData
deriving DecidableEq

/-- A `std::io::Error`: a kind plus its message. -/
structure IoError where
  kind : ErrorKind
  msg : String
deriving DecidableEq

/-- The error built at line 166: `io::Error::new(io::ErrorKind::Other,
"disconnected")`, produced when `poll_force_read_ready` reports the peer
gone mid-handshake. -/
def disconnectedError : IoError := ⟨.other, "disconnected"⟩

/-- The error built at line 187: `io::Error::new(io::ErrorKind::TimedOut,
"rustls handshake timeout")`. -/
def timeoutError : IoError := ⟨.timedOut, "rustls handshake timeout"⟩

/-- What `io.poll_force_read_ready` eventually resolves to when the driver
suspends waiting for inbound bytes: new data (`Some`), `None`
(disconnected), or an I/O error propagated by the `?` operator. -/
inductive Readiness where
  | ready
  | disconnected
  | fail (e : IoError)

/-- One iteration of the `create` loop as observed at line 139–152: either
`with_buf` itself failed (the `?` at line 152), or it returned the result of
the `complete_io` round together with the sampled `wants_read` /
`is_handshaking` flags; `readiness` is what a suspension would observe. -/
inductive RoundOutcome where
  | bufErr (e : IoError)
  | round (r : Except IoError Unit) (wantsRead : Bool) (handshaking : Bool)
      (readiness : Readiness)

/-- How the `match result` at lines 154–183 disposes of one round:
`some r` means `create` returns `r`; `none` means the loop continues with
the next round. -/
def stepRound : RoundOutcome → Option (Except IoError Unit)
  | .bufErr e => some (.error e)
  | .round r wantsRead handshaking readiness =>
      match r with
      | .ok _ => some (.ok ())
      | .error e =>
          if e.kind = .wouldBlock then
            if handshaking = false then some (.ok ())
            else if wantsRead then
              match readiness with
              | .ready => none
              | .disconnected => some (.error disconnectedError)
              | .fail e2 => some (.error e2)
            else none
          else some (.error e)

/-- The `loop` of `create` over a trace of rounds; `none` means the trace
ended with the loop still running. -/
def handshakeLoop : List RoundOutcome → Option (Except IoError Unit)
  | [] => none
  | r :: rest =>
      match stepRound r with
      | some res => some res
      | none => handshakeLoop rest

/-- All `IoError` values a round can inject into the loop (the round result
itself and a readiness failure). -/
def roundErrors : RoundOutcome → List IoError
  | .bufErr e => [e]
  | .round r _ _ readiness =>
      (match r with | .ok _ => [] | .error e => [e]) ++
        (match readiness with | .fail e => [e] | _ => [])

/-- All `IoError` values occurring in a trace. -/
def traceErrors (t : List RoundOutcome) : List IoError :=
  (t.map roundErrors).flatten

/-- The result of `TlsServerFilter::create`: the `time::timeout` wrapper
(line 129 and 186–188) yields the dedicated timeout error when the deadline
fires first; otherwise a `ServerConnection::new` failure is surfaced with
kind `Other` (line 131), else the loop result stands. -/
def createResult (sessionErr : Option String) (deadlineExceeded : Bool)
    (trace : List RoundOutcome) : Option (Except IoError Unit) :=
  if deadlineExceeded then some (.error timeoutError)
  else
    match sessionErr with
    | some s => some (.error ⟨.other, s⟩)
    | none => handshakeLoop trace

/-! ## The write buffer processor

`process_write_buf` (lines 101–120) loops: if the source queue is non-empty
it hands bytes to `session.writer().write` and drops the consumed prefix;
then, if the engine has pending TLS output, it drains it through the
`Wrapper` into the transport and loops, else it breaks.  The engine is
abstract: a state type with the three operations the code calls. -/

/-- The write-side engine operations `process_write_buf` invokes. -/
structure WriteEngineOps (σ : Type) where
  writePlain : σ → List Nat → Except IoError (Nat × σ)
  wantsWrite : σ → Bool
  completeIo : σ → Except IoError (σ × List Nat)

/-- The guarded write at lines 108–110: when the source queue is empty the
`writer().write` call is skipped (zero bytes consumed), otherwise the engine
is handed the whole source. -/
def writeStep {σ : Type} (ops : WriteEngineOps σ) (eng : σ) (src : List Nat) :
    Except IoError (Nat × σ) :=
  if src.isEmpty then .ok (0, eng) else ops.writePlain eng src

/-- The loop of `process_write_buf`, fuelled; state is (source queue, engine,
bytes pushed to the transport so far).  `none` is fuel exhaustion. -/
def processWriteLoop {σ : Type} (ops : WriteEngineOps σ) :
    Nat → List Nat → σ → List Nat →
      Option (Except IoError (List Nat × σ × List Nat))
  | 0, _, _, _ => none
  | fuel + 1, src, eng, out =>
      match writeStep ops eng src with
      | .error e => some (.error e)
      | .ok (n, eng1) =>
          if ops.wantsWrite eng1 then
            match ops.completeIo eng1 with
            | .error e => some (.error e)
            | .ok (eng2, bytes) =>
                processWriteLoop ops fuel (src.drop n) eng2 (out ++ bytes)
          else some (.ok (src.drop n, eng1, out))

/-- An engine whose `writer().write` always accepts every byte offered. -/
def FullyConsuming {σ : Type} (ops : WriteEngineOps σ) : Prop :=
  ∀ eng src n eng1, ops.writePlain eng src = .ok (n, eng1) → n = src.length

/-- A conforming engine state for which `writer().write` makes no progress
(its internal plaintext buffer is at its limit) while no TLS output is
pending: the loop breaks immediately. -/
def stubbornWriteOps : WriteEngineOps Unit :=
  { writePlain := fun _ _ => .ok (0, ())
    wantsWrite := fun _ => false
    completeIo := fun _ => .ok ((), []) }

/-- A write-side engine with nothing pending, used to exercise the empty
source queue case. -/
def quietWriteOps : WriteEngineOps Unit :=
  { writePlain := fun _ src => .ok (src.length, ())
    wantsWrite := fun _ => false
    completeIo := fun _ => .ok ((), []) }

/-! ## The read buffer processor

`process_read_buf` (lines 66–99) loops: `read_tls` consumes a prefix of the
source queue, `process_new_packets` decrypts (its error mapped to kind
`Other` at line 80), and if `plaintext_bytes_to_read` is positive the loop
reserves that many bytes in the destination and drains them with
`session.reader().read`, else it breaks.  The engine core is abstract; the
plaintext the engine has decrypted but not yet handed out is explicit, since
the drain via `reader().read` empties exactly that buffer. -/

/-- The read-side engine operations: `read_tls` consumes a prefix of the
wire bytes; `process_new_packets` yields the newly decrypted plaintext (or a
rustls error string). -/
structure ReadEngineOps (σ : Type) where
  readTls : σ → List Nat → Except IoError (Nat × σ)
  processPackets : σ → Except String (σ × List Nat)

/-- A read-side engine: opaque core plus the buffered decrypted plaintext
(`plaintext_bytes_to_read` is its length; `reader().read` drains it). -/
structure ReadEngine (σ : Type) where
  core : σ
  plainBuf : List Nat

/-- The loop of `process_read_buf`, fuelled; state is (source queue, engine,
destination queue, plaintext bytes produced so far).  The drain step reads
exactly the buffered plaintext because `dst.reserve(new_b)` guarantees the
chunk is at least `new_b` bytes long.  `none` is fuel exhaustion. -/
def processReadLoop {σ : Type} (ops : ReadEngineOps σ) :
    Nat → List Nat → ReadEngine σ → List Nat → Nat →
      Option (Except IoError (List Nat × ReadEngine σ × List Nat × Nat))
  | 0, _, _, _, _ => none
  | fuel + 1, src, eng, dst, newBytes =>
      match ops.readTls eng.core src with
      | .error e => some (.error e)
      | .ok (n, core1) =>
          let src1 := src.drop n
          match ops.processPackets core1 with
          | .error s => some (.error ⟨.other, s⟩)
          | .ok (core2, newPlain) =>
              let buf := eng.plainBuf ++ newPlain
              if 0 < buf.length then
                processReadLoop ops fuel src1 ⟨core2, []⟩ (dst ++ buf)
                  (newBytes + buf.length)
              else some (.ok (src1, ⟨core2, []⟩, dst, newBytes))

/-- A read-side engine that, like any TLS engine fed no wire bytes,
consumes nothing and decrypts nothing. -/
def quietReadOps : ReadEngineOps Unit :=
  { readTls := fun _ _ => .ok (0, ())
    processPackets := fun _ => .ok ((), []) }

end NtexTls

namespace NtexSignals

/-! ## Process-signal registration and fan-out

`src/ntex-server/src/signals.rs`: `signal()` pushes a fresh oneshot sender
onto the thread-local `HANDLERS` list; the Unix `start` loop maps each raw
OS signal to a `Signal`, forwards it to the server, drains `HANDLERS`
sending the value to every registered sender, and returns after an `Int` or
`Quit`.  Acceptors are modelled by identifiers; the state records the
registry, every send performed, and the signals forwarded to the server. -/

/-- The `Signal` enum (lines 12–22). -/
inductive Signal where
  | hup
  | int
  | term
  | quit
deriving DecidableEq

/-- State of the signal subsystem: pending acceptors, sends performed so
far, and signals forwarded to the server so far. -/
structure SigState where
  handlers : List Nat
  sent : List (Nat × Signal)
  srvSignals : List Signal
deriving DecidableEq

/-- `signal()` (lines 26–35): registers a fresh oneshot sender. -/
def register (h : Nat) (st : SigState) : SigState :=
  { st with handlers := st.handlers ++ [h] }

/-- One signal delivery (lines 66–73): `srv.signal(sig)` followed by
draining `HANDLERS`, sending `sig` to every registered acceptor. -/
def deliver (sig : Signal) (st : SigState) : SigState :=
  { handlers := []
    sent := st.sent ++ st.handlers.map (fun h => (h, sig))
    srvSignals := st.srvSignals ++ [sig] }

/-- The `match info` at lines 58–64, with the Linux signal numbers
(`SIGHUP = 1`, `SIGTERM = 15`, `SIGINT = 2`, `SIGQUIT = 3`); any other
number hits the `_ => continue` arm. -/
def osToSignal (n : Nat) : Option Signal :=
  if n = 1 then some .hup
  else if n = 15 then some .term
  else if n = 2 then some .int
  else if n = 3 then some .quit
  else none

/-- An event the signal thread interleaves with: an OS signal arriving, or
a listener registering an acceptor. -/
inductive Event where
  | os (n : Nat)
  | reg (h : Nat)

/-- The `for info in &mut signals` loop (lines 57–78) over a trace of
events: unknown numbers are skipped, known ones are delivered, and the loop
returns right after delivering `Int` or `Quit` (lines 75–77), so events in
the rest of the trace are never processed. -/
def runLoop : List Event → SigState → SigState
  | [], st => st
  | .reg h :: rest, st => runLoop rest (register h st)
  | .os n :: rest, st =>
      match osToSignal n with
      | none => runLoop rest st
      | some sig =>
          if sig = .int ∨ sig = .quit then deliver sig st
          else runLoop rest (deliver sig st)

end NtexSignals

/-! ## Theorems -/

namespace NtexTls

theorem hasH2Window_iff (v : List Nat) : hasH2Window v = true ↔ SpecHasH2 v := by
  constructor
  · intro h
    induction v with
    | nil => simp [hasH2Window] at h
    | cons a rest ih =>
      match rest, h with
      | b :: rest, h =>
        simp only [hasH2Window, Bool.or_eq_true, Bool.and_eq_true,
          decide_eq_true_eq] at h
        rcases h with ⟨ha, hb⟩ | h
        · exact ⟨[], rest, by simp [ha, hb]⟩
        · obtain ⟨pre, suf, hps⟩ := ih h
          exact ⟨a :: pre, suf, by simp [hps]⟩
  · rintro ⟨pre, suf, rfl⟩
    induction pre with
    | nil => simp [hasH2Window]
    | cons a pre ih =>
      match pre, ih with
      | [], _ => simp [hasH2Window]
      | b :: pre, ih =>
        simp only [List.cons_append, hasH2Window, Bool.or_eq_true] at ih ⊢
        exact Or.inr ih

/-- C1 (counterexample): on a session that is still handshaking with no
negotiated fact, the `ApplicationProtocol` capability query does not return
absence — it returns the boxed `HttpProtocol::Http1` fallback. -/
theorem query_pre_handshake_counterexample :
    PreHandshake preHsSession ∧ query preHsSession .applicationProtocol ≠ none := by
  constructor
  · exact ⟨rfl, rfl, rfl, rfl⟩
  · simp [query, preHsSession]

/-- C1 (amended): before handshake completion the `PeerCertificate`,
`PeerCertificateChain` and `ServerName` capability queries return absence,
while `ApplicationProtocol` returns the `HTTP/1` fallback rather than
absence. -/
theorem query_pre_handshake (s : SessionState) (h : PreHandshake s) :
    query s .applicationProtocol = some (.httpProto .http1) ∧
    query s .peerCertificate = none ∧
    query s .peerCertificateChain = none ∧
    query s .serverName = none := by
  obtain ⟨hh, ha, hp, hn⟩ := h
  refine ⟨?_, ?_, ?_, ?_⟩ <;> simp [query, ha, hp, hn]

theorem query_pre_handshake_witness :
    PreHandshake preHsSession ∧
    (query preHsSession .applicationProtocol = some (.httpProto .http1) ∧
     query preHsSession .peerCertificate = none ∧
     query preHsSession .peerCertificateChain = none ∧
     query preHsSession .serverName = none) :=
  ⟨⟨rfl, rfl, rfl, rfl⟩, query_pre_handshake preHsSession ⟨rfl, rfl, rfl, rfl⟩⟩

/-- C2 (counterexample): a session whose negotiated ALPN value is the three
bytes `a h 2` — a value different from the token `h2` — is nevertheless
classified as `HTTP/2`, because `query` looks for `h2` as a two-byte window
of the value rather than comparing for equality. -/
theorem query_alpn_h2_counterexample :
    ah2Session.alpn = some [97, 104, 50] ∧
    ([97, 104, 50] : List Nat) ≠ [104, 50] ∧
    query ah2Session .applicationProtocol = some (.httpProto .http2) := by
  refine ⟨rfl, by decide, ?_⟩
  simp [query, ah2Session, hasH2Window]

/-- C2 (amended): with a negotiated ALPN value, `query(ApplicationProtocol)`
returns `HTTP/2` if and only if the token `h2` occurs as a contiguous
two-byte substring of that value; otherwise, and when no ALPN value was
negotiated, it returns `HTTP/1`. -/
theorem query_alpn_h2_window (s : SessionState) :
    (∀ v, s.alpn = some v →
      ((query s .applicationProtocol = some (.httpProto .http2) ↔ SpecHasH2 v) ∧
       (¬ SpecHasH2 v → query s .applicationProtocol = some (.httpProto .http1)))) ∧
    (s.alpn = none → query s .applicationProtocol = some (.httpProto .http1)) := by
  constructor
  · intro v hv
    rw [← hasH2Window_iff]
    constructor
    · simp only [query, hv, Option.map_some, Option.getD_some]
      by_cases h : hasH2Window v <;> simp [h]
    · intro h
      simp only [Bool.not_eq_true] at h
      simp [query, hv, h]
  · intro hv
    simp [query, hv]

theorem query_alpn_h2_window_witness :
    h2Session.alpn = some [104, 50] ∧
    query h2Session .applicationProtocol = some (.httpProto .http2) :=
  ⟨rfl, ((query_alpn_h2_window h2Session).1 [104, 50] rfl).1.mpr ⟨[], [], rfl⟩⟩

/-- C3: `query(PeerCertificate)` returns the first certificate of the chain
the peer presented and `query(PeerCertificateChain)` returns the full chain
in the order presented; when the peer presented no certificate, both
queries return absence. -/
theorem query_peer_certificates (s : SessionState) :
    (∀ c chain, s.peerCerts = some (c :: chain) →
        query s .peerCertificate = some (.peerCert c) ∧
        query s .peerCertificateChain = some (.peerCertChain (c :: chain))) ∧
    (s.peerCerts = none →
        query s .peerCertificate = none ∧ query s .peerCertificateChain = none) := by
  constructor
  · intro c chain h
    refine ⟨?_, ?_⟩ <;> simp [query, h]
  · intro h
    refine ⟨?_, ?_⟩ <;> simp [query, h]

theorem query_peer_certificates_witness :
    certSession.peerCerts = some ([1, 2] :: [[3]]) ∧
    (query certSession .peerCertificate = some (.peerCert [1, 2]) ∧
     query certSession .peerCertificateChain = some (.peerCertChain [[1, 2], [3]])) :=
  ⟨rfl, (query_peer_certificates certSession).1 [1, 2] [[3]] rfl⟩

end NtexTls

namespace NtexTls

theorem handshakeLoop_append (pre suf : List RoundOutcome)
    (h : handshakeLoop pre = none) :
    handshakeLoop (pre ++ suf) = handshakeLoop suf := by
  induction pre with
  | nil => simp
  | cons r rest ih =>
      simp only [handshakeLoop, List.cons_append] at h ⊢
      cases hs : stepRound r with
      | some res => simp [hs] at h
      | none =>
          simp only [hs] at h ⊢
          exact ih h

theorem traceErrors_cons (r : RoundOutcome) (rest : List RoundOutcome) :
    traceErrors (r :: rest) = roundErrors r ++ traceErrors rest := by
  simp [traceErrors]

theorem stepRound_error_cases (r : RoundOutcome) (e : IoError)
    (h : stepRound r = some (.error e)) :
    e ∈ roundErrors r ∨ e = disconnectedError := by
  cases r with
  | bufErr e0 =>
      simp only [stepRound, Option.some.injEq, Except.error.injEq] at h
      simp [roundErrors, h]
  | round res wr hs rdn =>
      cases res with
      | ok u => simp [stepRound] at h
      | error e0 =>
          simp only [stepRound] at h
          by_cases hk : e0.kind = .wouldBlock
          · rw [if_pos hk] at h
            by_cases hhs : hs = false
            · rw [if_pos hhs] at h
              simp at h
            · rw [if_neg hhs] at h
              cases wr with
              | false => simp at h
              | true =>
                  rw [if_pos rfl] at h
                  cases rdn with
                  | ready => simp at h
                  | disconnected =>
                      simp only [Option.some.injEq, Except.error.injEq] at h
                      exact Or.inr h.symm
                  | fail e2 =>
                      simp only [Option.some.injEq, Except.error.injEq] at h
                      subst h
                      simp [roundErrors]
          · rw [if_neg hk] at h
            simp only [Option.some.injEq, Except.error.injEq] at h
            subst h
            left
            cases rdn <;> simp [roundErrors]

theorem handshakeLoop_error_mem (t : List RoundOutcome) (e : IoError)
    (h : handshakeLoop t = some (.error e)) :
    e ∈ traceErrors t ∨ e = disconnectedError := by
  induction t with
  | nil => simp [handshakeLoop] at h
  | cons r rest ih =>
      simp only [handshakeLoop] at h
      cases hs : stepRound r with
      | some res =>
          simp only [hs, Option.some.injEq] at h
          subst h
          rcases stepRound_error_cases r e hs with hm | hm
          · left
            rw [traceErrors_cons]
            exact List.mem_append_left _ hm
          · exact Or.inr hm
      | none =>
          simp only [hs] at h
          rcases ih h with hm | hm
          · left
            rw [traceErrors_cons]
            exact List.mem_append_right _ hm
          · exact Or.inr hm

/-- C4: whenever a round of the handshake loop reports a would-block
condition while the engine is no longer handshaking, `create` resolves
successfully with the filtered transport. -/
theorem create_wouldblock_after_handshake_succeeds
    (pre rest : List RoundOutcome) (e : IoError) (wantsRead : Bool)
    (rdn : Readiness) (hk : e.kind = .wouldBlock)
    (hpre : handshakeLoop pre = none) :
    createResult none false
      (pre ++ .round (.error e) wantsRead false rdn :: rest) = some (.ok ()) := by
  unfold createResult
  rw [if_neg (by simp), handshakeLoop_append pre _ hpre]
  simp [handshakeLoop, stepRound, hk]

theorem create_wouldblock_after_handshake_succeeds_witness :
    (IoError.mk .wouldBlock "would block").kind = .wouldBlock ∧
    handshakeLoop [] = none ∧
    createResult none false
      ([] ++ .round (.error ⟨.wouldBlock, "would block"⟩) true false .ready :: [])
      = some (.ok ()) :=
  ⟨rfl, rfl,
    create_wouldblock_after_handshake_succeeds [] [] ⟨.wouldBlock, "would block"⟩
      true .ready rfl rfl⟩

/-- C5: when the handshake loop exceeds its deadline, `create` fails with
the dedicated timeout error of kind `TimedOut`; errors produced by
protocol or I/O failures inside the loop never carry that kind, so callers
can distinguish the two outcomes. -/
theorem create_timeout_error_distinct (sessionErr : Option String)
    (t : List RoundOutcome) (e : IoError)
    (hno : ∀ x ∈ traceErrors t, x.kind ≠ .timedOut) :
    createResult sessionErr true t = some (.error timeoutError) ∧
    timeoutError.kind = .timedOut ∧
    (handshakeLoop t = some (.error e) → e.kind ≠ .timedOut) := by
  refine ⟨by simp [createResult], rfl, fun h => ?_⟩
  rcases handshakeLoop_error_mem t e h with hm | hm
  · exact hno e hm
  · rw [hm]
    simp [disconnectedError]

theorem create_timeout_error_distinct_witness :
    (∀ x ∈ traceErrors [.round (.error ⟨.invalidData, "bad record"⟩) false true .ready],
        x.kind ≠ .timedOut) ∧
    (createResult none true
        [.round (.error ⟨.invalidData, "bad record"⟩) false true .ready]
        = some (.error timeoutError) ∧
      timeoutError.kind = .timedOut ∧
      (handshakeLoop [.round (.error ⟨.invalidData, "bad record"⟩) false true .ready]
          = some (.error ⟨.invalidData, "bad record"⟩) →
        (IoError.mk .invalidData "bad record").kind ≠ .timedOut)) :=
  ⟨by decide,
    create_timeout_error_distinct none
      [.round (.error ⟨.invalidData, "bad record"⟩) false true .ready]
      ⟨.invalidData, "bad record"⟩ (by decide)⟩

/-- C6: when the transport reports disconnection while the session is still
handshaking and the driver waits for read readiness, `create` fails with
the I/O error of kind `Other`, distinct from the timeout error kind and
from the `InvalidData` kind of a malformed-record error. -/
theorem create_disconnect_fails_distinct (pre rest : List RoundOutcome)
    (e : IoError) (hk : e.kind = .wouldBlock)
    (hpre : handshakeLoop pre = none) :
    createResult none false
        (pre ++ .round (.error e) true true .disconnected :: rest)
      = some (.error disconnectedError) ∧
    disconnectedError.kind ≠ timeoutError.kind ∧
    disconnectedError.kind ≠ .invalidData := by
  refine ⟨?_, by decide, by decide⟩
  unfold createResult
  rw [if_neg (by simp), handshakeLoop_append pre _ hpre]
  simp [handshakeLoop, stepRound, hk]

theorem create_disconnect_fails_distinct_witness :
    (IoError.mk .wouldBlock "would block").kind = .wouldBlock ∧
    handshakeLoop [] = none ∧
    (createResult none false
        ([] ++ .round (.error ⟨.wouldBlock, "would block"⟩) true true .disconnected :: [])
        = some (.error disconnectedError) ∧
      disconnectedError.kind ≠ timeoutError.kind ∧
      disconnectedError.kind ≠ .invalidData) :=
  ⟨rfl, rfl,
    create_disconnect_fails_distinct [] [] ⟨.wouldBlock, "would block"⟩ rfl rfl⟩

end NtexTls

namespace NtexTls

/-- C7 (counterexample): a conforming engine state whose `writer().write`
makes no progress while no TLS output is pending makes `process_write_buf`
return successfully with the source queue not exhausted. -/
theorem write_loop_source_not_exhausted :
    processWriteLoop stubbornWriteOps 1 [1] () [] = some (.ok ([1], (), [])) ∧
    ([1] : List Nat) ≠ [] := by
  refine ⟨?_, by simp⟩
  rfl

/-- C7 (amended): whenever `process_write_buf` returns successfully, its
loop has terminated with the engine reporting no pending output; the source
queue is moreover exhausted whenever the engine consumes every byte it is
handed. -/
theorem write_loop_success_flushed {σ : Type} (ops : WriteEngineOps σ)
    (fuel : Nat) (src out src1 out1 : List Nat) (eng eng1 : σ)
    (h : processWriteLoop ops fuel src eng out = some (.ok (src1, eng1, out1))) :
    ops.wantsWrite eng1 = false ∧ (FullyConsuming ops → src1 = []) := by
  induction fuel generalizing src eng out with
  | zero => simp [processWriteLoop] at h
  | succ n ih =>
      simp only [processWriteLoop] at h
      cases hws : writeStep ops eng src with
      | error e => simp [hws] at h
      | ok p =>
          obtain ⟨m, engW⟩ := p
          simp only [hws] at h
          by_cases hw : ops.wantsWrite engW
          · rw [if_pos hw] at h
            cases hc : ops.completeIo engW with
            | error e => simp [hc] at h
            | ok q =>
                obtain ⟨eng2, bytes⟩ := q
                simp only [hc] at h
                exact ih _ _ _ h
          · rw [if_neg hw] at h
            simp only [Option.some.injEq, Except.ok.injEq, Prod.mk.injEq] at h
            obtain ⟨hsrc1, heng1, hout1⟩ := h
            subst hsrc1
            subst heng1
            refine ⟨by simpa using hw, fun hfc => ?_⟩
            unfold writeStep at hws
            by_cases hse : src.isEmpty
            · rw [if_pos hse] at hws
              simp only [Except.ok.injEq, Prod.mk.injEq] at hws
              obtain ⟨hm, _⟩ := hws
              rw [← hm]
              simpa [List.isEmpty_iff] using hse
            · rw [if_neg hse] at hws
              rw [hfc eng src m engW hws]
              simp

theorem write_loop_success_flushed_witness :
    processWriteLoop quietWriteOps 1 [1, 2] () [] = some (.ok ([], (), [])) ∧
    (quietWriteOps.wantsWrite () = false ∧
      (FullyConsuming quietWriteOps → ([] : List Nat) = [])) :=
  ⟨rfl, write_loop_success_flushed quietWriteOps 1 [1, 2] [] [] [] () () rfl⟩

/-- C8: invoking the read buffer processor with an empty source queue (on a
session with no plaintext left buffered, which every successful call
leaves behind) consumes nothing, produces nothing, returns no error and
reports a produced-byte count of zero; invoking the write buffer processor
with an empty source queue (on a session with no pending output) pushes
nothing to the transport and returns no error. -/
theorem buffer_processors_empty_source_noop {σ τ : Type}
    (ops : ReadEngineOps σ) (wops : WriteEngineOps τ)
    (core core1 core2 : σ) (weng : τ) (rfuel wfuel : Nat) (dst out : List Nat)
    (hrt : ops.readTls core [] = .ok (0, core1))
    (hpp : ops.processPackets core1 = .ok (core2, []))
    (hww : wops.wantsWrite weng = false) :
    processReadLoop ops (rfuel + 1) [] ⟨core, []⟩ dst 0
      = some (.ok ([], ⟨core2, []⟩, dst, 0)) ∧
    processWriteLoop wops (wfuel + 1) [] weng out = some (.ok ([], weng, out)) := by
  constructor
  · simp only [processReadLoop, hrt, hpp]
    simp
  · simp only [processWriteLoop, writeStep, List.isEmpty_nil, if_pos]
    simp [hww]

theorem buffer_processors_empty_source_noop_witness :
    quietReadOps.readTls () [] = .ok (0, ()) ∧
    quietReadOps.processPackets () = .ok ((), []) ∧
    quietWriteOps.wantsWrite () = false ∧
    (processReadLoop quietReadOps 1 [] ⟨(), []⟩ [] 0
        = some (.ok ([], ⟨(), []⟩, [], 0)) ∧
      processWriteLoop quietWriteOps 1 [] () [] = some (.ok ([], (), []))) :=
  ⟨rfl, rfl, rfl,
    buffer_processors_empty_source_noop quietReadOps quietWriteOps () () () ()
      0 0 [] [] rfl rfl rfl⟩

end NtexTls

namespace NtexSignals

/-- C9: delivering a process signal sends its value to every acceptor
registered at that moment and empties the registry, so a listener must
re-register to observe a subsequent signal. -/
theorem deliver_notifies_and_clears (sig : Signal) (st : SigState) (h : Nat)
    (hm : h ∈ st.handlers) :
    (h, sig) ∈ (deliver sig st).sent ∧ (deliver sig st).handlers = [] := by
  refine ⟨?_, rfl⟩
  simp only [deliver, List.mem_append, List.mem_map]
  exact Or.inr ⟨h, hm, rfl⟩

theorem deliver_notifies_and_clears_witness :
    7 ∈ (SigState.mk [7, 8] [] []).handlers ∧
    ((7, Signal.int) ∈ (deliver .int ⟨[7, 8], [], []⟩).sent ∧
      (deliver .int ⟨[7, 8], [], []⟩).handlers = []) :=
  ⟨by decide, deliver_notifies_and_clears .int ⟨[7, 8], [], []⟩ 7 (by decide)⟩

/-- C10: once the Unix signal loop delivers a signal that maps to `Int` or
`Quit` it returns, so the events after that point — later OS signals of any
kind and later registrations — never change the state: nothing more is
forwarded to the server or sent to acceptors. -/
theorem signal_loop_stops_after_int_quit (xs ys : List Event) (n : Nat)
    (sig : Signal) (st : SigState) (hn : osToSignal n = some sig)
    (hterm : sig = .int ∨ sig = .quit) :
    runLoop (xs ++ .os n :: ys) st = runLoop (xs ++ [.os n]) st := by
  induction xs generalizing st with
  | nil =>
      simp only [List.nil_append, runLoop, hn]
      rw [if_pos hterm, if_pos hterm]
  | cons ev rest ih =>
      cases ev with
      | reg h =>
          simp only [List.cons_append, runLoop]
          exact ih _
      | os m =>
          simp only [List.cons_append, runLoop]
          cases hm : osToSignal m with
          | none => exact ih _
          | some sig2 =>
              dsimp only
              by_cases h2 : sig2 = .int ∨ sig2 = .quit
              · rw [if_pos h2, if_pos h2]
              · rw [if_neg h2, if_neg h2]
                exact ih _

theorem signal_loop_stops_after_int_quit_witness :
    osToSignal 2 = some .int ∧ (Signal.int = .int ∨ Signal.int = .quit) ∧
    runLoop ([.reg 1] ++ .os 2 :: [.os 1, .reg 2]) ⟨[], [], []⟩
      = runLoop ([.reg 1] ++ [.os 2]) ⟨[], [], []⟩ :=
  ⟨rfl, Or.inl rfl,
    signal_loop_stops_after_int_quit [.reg 1] [.os 1, .reg 2] 2 .int ⟨[], [], []⟩
      rfl (Or.inl rfl)⟩

end NtexSignals
